import Mathlib

/-!
Verification of the `MonitorModel` registry from
`src/hwmonitor/monitors/monitor_model.py` (Orphis/HwMonitorAlignment).

The registry is a Python class wrapping an insertion-ordered `dict`
mapping `device_name : str` to `Monitor` descriptor objects, with
observable mutators (`add`, `remove`, `pop`, `reset`) that emit
notifications (`item_added`, `item_removed`, `model_reset`) and pure
geometric queries (`get_from_position`, `get_monitor_order`,
`get_vscreen_size`, `get_primary_monitor`, `filter`).

The embedding below models the `dict` as an association list in
insertion order (CPython dicts preserve insertion order; a new key is
appended at the end), exceptions as an `Except PyError` result, and the
synchronously emitted notifications as an explicit list of events
returned by each mutator.
-/

namespace HwMonitor

/-- Modelled from the spec: the `Monitor` descriptor class
(`hwmonitor/monitors/monitor.py`) is not among the provided sources; the
spec's data model lists its fields: `device_name` (unique string
identifier, the registry key), `index` (display-facing label),
`position_x`/`position_y` (integer coordinates of the top-left corner,
may be negative), `screen_width`/`screen_height` (integer pixel
dimensions), and `primary` (boolean flag). -/
structure Monitor where
  device_name : String
  index : Nat
  position_x : Int
  position_y : Int
  screen_width : Int
  screen_height : Int
  primary : Bool
deriving DecidableEq, Repr

/-- Modelled from the spec: the observable `Model` base class
(`hwmonitor/core/model.py`) is not among the provided sources; per the
spec it provides three synchronous notification kinds —
`ItemAdded(key, value)`, `ItemRemoved(key, value)`, `ModelReset()` —
emitted by the mutators. Each mutator in this embedding returns the
list of notifications it emitted, in emission order. -/
inductive Event where
  | itemAdded (device_name : String) (monitor : Monitor)
  | itemRemoved (device_name : String) (monitor : Monitor)
  | modelReset
deriving DecidableEq, Repr

/-- The Python exceptions raised by the registry code: `ValueError` by
`add` on a duplicate key, `KeyError` by `dict.pop` on a missing key,
`LookupError` by `get_from_position` when no monitor contains the
point, and `AttributeError` when an attribute is accessed on an object
that lacks it. -/
inductive PyError where
  | valueError (msg : String)
  | keyError (key : String)
  | lookupError (msg : String)
  | attributeError (msg : String)
deriving DecidableEq, Repr

/-- The registry state: the private insertion-ordered dict
`self.__monitors`, as an association list of
`(device_name, monitor)` pairs in insertion order. -/
structure MonitorModel where
  monitors : List (String × Monitor)
deriving DecidableEq, Repr

namespace MonitorModel

/-- `keys()`: the dict's keys, in insertion order. -/
def keys (model : MonitorModel) : List String :=
  model.monitors.map Prod.fst

/-- `self.__monitors.values()`: the stored descriptors, in insertion
order (also the result of `__iter__`/`iterate`). -/
def values (model : MonitorModel) : List Monitor :=
  model.monitors.map Prod.snd

/-- `items()`: the `(device_name, monitor)` pairs. -/
def items (model : MonitorModel) : List (String × Monitor) :=
  model.monitors

/-- `__len__` / `size()`: the number of entries. -/
def size (model : MonitorModel) : Nat :=
  model.monitors.length

/-- `__contains__` / `monitor.device_name in self.__monitors`: key
membership test of the dict. -/
def contains (model : MonitorModel) (device_name : String) : Bool :=
  model.monitors.any (fun q => decide (q.1 = device_name))

/-- `dict.get(key)`: the value stored under the first (unique, in any
state the Python code can build) binding of `key`, if any. -/
def dictGet : List (String × Monitor) → String → Option Monitor
  | [], _ => none
  | (k, v) :: rest, device_name =>
    if k = device_name then some v else dictGet rest device_name

/-- `get(device_name, default=None)`: pure lookup with a default,
never raises. -/
def get (model : MonitorModel) (device_name : String)
    (default : Option Monitor) : Option Monitor :=
  match dictGet model.monitors device_name with
  | some monitor => some monitor
  | none => default

/-- `add(monitor)`: raises `ValueError` when the device name is already
a key (before any mutation); otherwise stores the monitor under its
device name (a new dict key is appended at the end in insertion order)
and emits `item_added(device_name, monitor)`. -/
def add (model : MonitorModel) (monitor : Monitor) :
    Except PyError (MonitorModel × List Event) :=
  if model.contains monitor.device_name then
    .error (.valueError "Monitor is already in the model")
  else
    .ok (⟨model.monitors ++ [(monitor.device_name, monitor)]⟩,
      [.itemAdded monitor.device_name monitor])

/-- The registry state and emitted notifications after a call to
`add`: a raised exception propagates to the caller before any mutation,
leaving the mapping unchanged with no notification emitted. -/
def runAdd (model : MonitorModel) (monitor : Monitor) :
    MonitorModel × List Event :=
  match model.add monitor with
  | .ok r => r
  | .error _ => (model, [])

/-- `dict.pop(key)`: removes and returns the value under the first
binding of `key`, preserving the order of the remaining entries;
`none` models the `KeyError` raised when the key is absent. -/
def dictPop : List (String × Monitor) → String →
    Option (Monitor × List (String × Monitor))
  | [], _ => none
  | (k, v) :: rest, device_name =>
    if k = device_name then some (v, rest)
    else
      match dictPop rest device_name with
      | none => none
      | some (monitor, rest2) => some (monitor, (k, v) :: rest2)

/-- `pop(device_name)`: `self.__monitors.pop(device_name)` raises
`KeyError(device_name)` when the name is absent; otherwise it removes
the entry, emits `item_removed(device_name, monitor)` and returns the
removed monitor. -/
def pop (model : MonitorModel) (device_name : String) :
    Except PyError (Monitor × MonitorModel × List Event) :=
  match dictPop model.monitors device_name with
  | none => .error (.keyError device_name)
  | some (monitor, rest) =>
    .ok (monitor, ⟨rest⟩, [.itemRemoved device_name monitor])

/-- The registry state and emitted notifications after a call to
`pop`: a raised `KeyError` propagates before any mutation, leaving the
mapping unchanged with no notification emitted. -/
def runPop (model : MonitorModel) (device_name : String) :
    MonitorModel × List Event :=
  match model.pop device_name with
  | .ok (_, m2, evs) => (m2, evs)
  | .error _ => (model, [])

/-- `remove(monitor)`: delegates to `self.pop(monitor.device_name)`,
discarding the returned monitor. -/
def remove (model : MonitorModel) (monitor : Monitor) :
    Except PyError (MonitorModel × List Event) :=
  match model.pop monitor.device_name with
  | .ok (_, m2, evs) => .ok (m2, evs)
  | .error e => .error e

/-- `reset()`: clears the dict and emits a single `model_reset()`. -/
def reset (model : MonitorModel) : MonitorModel × List Event :=
  (⟨[]⟩, [.modelReset])

/-- `filter(operation)`: generator yielding, in insertion order, the
stored monitors for which `operation` returns `True`. -/
def filter (model : MonitorModel) (operation : Monitor → Bool) :
    List Monitor :=
  model.values.filter operation

/-- `get_primary_monitor()`:
`self.filter(lambda monitor: monitor.primary)`. -/
def get_primary_monitor (model : MonitorModel) : List Monitor :=
  model.filter (fun monitor => monitor.primary)

end MonitorModel

/-- The boolean order used by `get_monitor_order`:
`sorted(..., key=lambda monitor: (monitor.position_x, monitor.position_y))`
compares the key tuples lexicographically, so monitor `a` sorts no
later than `b` iff `(a.position_x, a.position_y) ≤ (b.position_x,
b.position_y)` in the standard lexicographic order on integer pairs. -/
def monitorLE (a b : Monitor) : Bool :=
  decide (a.position_x < b.position_x ∨
    (a.position_x = b.position_x ∧ a.position_y ≤ b.position_y))

/-- Modelled from CPython's documented semantics of the builtin
`sorted`: a stable sort, ascending with respect to the key comparison.
Inserts `a` into an already sorted list, strictly before the first
element `b` with `le a b` (so an element of the original list that
precedes equivalent elements stays before them). -/
def insertSorted (le : Monitor → Monitor → Bool) (a : Monitor) :
    List Monitor → List Monitor
  | [] => [a]
  | b :: l => if le a b then a :: b :: l else b :: insertSorted le a l

/-- Stable insertion sort: sorts the tail, then inserts the head in
front of any equivalent elements (which all came later in the input),
giving exactly the stable ascending order of CPython's `sorted`. -/
def stableSorted (le : Monitor → Monitor → Bool) :
    List Monitor → List Monitor
  | [] => []
  | a :: l => insertSorted le a (stableSorted le l)

namespace MonitorModel

/-- `get_monitor_order()`: `sorted(self.__monitors.values(),
key=lambda monitor: (monitor.position_x, monitor.position_y))`. -/
def get_monitor_order (model : MonitorModel) : List Monitor :=
  stableSorted monitorLE model.values

end MonitorModel

/-- The membership test of `get_from_position`: the closed rectangle
`position_x <= x <= position_x + screen_width and
position_y <= y <= position_y + screen_height`. -/
def InRect (x y : Int) (monitor : Monitor) : Prop :=
  monitor.position_x ≤ x ∧ x ≤ monitor.position_x + monitor.screen_width ∧
  monitor.position_y ≤ y ∧ y ≤ monitor.position_y + monitor.screen_height

instance (x y : Int) (monitor : Monitor) : Decidable (InRect x y monitor) := by
  unfold InRect
  infer_instance

/-- The loop of `get_from_position`: returns the first monitor, in the
traversal order of `self.__monitors.values()`, whose closed rectangle
contains the point; falls through to `raise LookupError(...)`. -/
def findFromPosition (x y : Int) : List Monitor → Except PyError Monitor
  | [] => .error (.lookupError
      "Requested position is outside of visible virtual screen area")
  | monitor :: rest =>
    if InRect x y monitor then .ok monitor else findFromPosition x y rest

namespace MonitorModel

/-- `get_from_position(x, y)`. -/
def get_from_position (model : MonitorModel) (x y : Int) :
    Except PyError Monitor :=
  findFromPosition x y model.values

end MonitorModel

/-- Python attribute lookup `monitor.position_x` (and the other three
geometry attributes) as performed by the loop of `get_vscreen_size`:
`for monitor in self.__monitors` iterates over the dict's KEYS, which
are `str` values, and `str` has no such attributes, so the lookup
raises `AttributeError`. -/
def strGeometryAttr (attr : String) (_key : String) : Except PyError Int :=
  .error (.attributeError ("str object has no attribute " ++ attr))

/-- The loop of `get_vscreen_size`, over the dict's keys, threading the
four accumulators `min_x`, `max_x`, `min_y`, `max_y` (all initialised
to 0). Each iteration evaluates the monitor's geometry attributes on
the loop variable — a `str` key — so the first iteration raises. -/
def vscreenLoop : List String → Int → Int → Int → Int →
    Except PyError (Int × Int × Int × Int)
  | [], min_x, max_x, min_y, max_y => .ok (min_x, max_x, min_y, max_y)
  | monitor :: rest, min_x, max_x, min_y, max_y => do
    let px ← strGeometryAttr "position_x" monitor
    let sw ← strGeometryAttr "screen_width" monitor
    let py ← strGeometryAttr "position_y" monitor
    let sh ← strGeometryAttr "screen_height" monitor
    vscreenLoop rest (min min_x px) (max max_x (px + sw))
      (min min_y py) (max max_y (py + sh))

namespace MonitorModel

/-- `get_vscreen_size()`: runs the accumulator loop over
`self.__monitors` (the keys) and returns
`(max_x - min_x, max_y - min_y)`. -/
def get_vscreen_size (model : MonitorModel) : Except PyError (Int × Int) :=
  match vscreenLoop model.keys 0 0 0 0 with
  | .error e => .error e
  | .ok (min_x, max_x, min_y, max_y) => .ok (max_x - min_x, max_y - min_y)

end MonitorModel

/-- The registry states reachable through the public mutators, starting
from the empty registry built by `__init__`: a failed mutator raises
before mutating, so only successful `add`/`pop` (and `remove`, which
delegates to `pop`) and `reset` produce new states. -/
inductive Reachable : MonitorModel → Prop where
  | init : Reachable ⟨[]⟩
  | addOk {m m2 : MonitorModel} {d : Monitor} {evs : List Event} :
      Reachable m → m.add d = .ok (m2, evs) → Reachable m2
  | popOk {m m2 : MonitorModel} {n : String} {mon : Monitor}
      {evs : List Event} :
      Reachable m → m.pop n = .ok (mon, m2, evs) → Reachable m2
  | resetStep {m : MonitorModel} : Reachable m → Reachable (m.reset).1

/-- The spec's key invariant: every key maps to a descriptor whose own
`device_name` field equals that key. -/
def KeysMatch (model : MonitorModel) : Prop :=
  ∀ q ∈ model.monitors, q.1 = q.2.device_name

/-! Concrete fixtures used by the spec's worked examples and by the
witness theorems. -/

/-- The registry produced by `__init__`. -/
def emptyModel : MonitorModel := ⟨[]⟩

/-- The spec's monitor `A = [0, 0, 100, 100]`. -/
def mA : Monitor := ⟨"A", 0, 0, 0, 100, 100, true⟩

/-- The spec's monitor `B = [100, 0, 100, 100]`. -/
def mB : Monitor := ⟨"B", 1, 100, 0, 100, 100, false⟩

/-- A registry holding `A` then `B`. -/
def mAB : MonitorModel := ⟨[("A", mA), ("B", mB)]⟩

/-- A registry holding only `A`. -/
def mJustA : MonitorModel := ⟨[("A", mA)]⟩

/-- A descriptor with the same `device_name` as `mA` but different
geometry, `index` and `primary` flag. -/
def mA2 : Monitor := ⟨"A", 5, 7, 7, 50, 50, false⟩

/-- A second primary monitor, sharing `mB`'s geometry. -/
def mBprim : Monitor := ⟨"B", 1, 100, 0, 100, 100, true⟩

/-- A registry holding two monitors that are both flagged primary. -/
def mTwoPrimary : MonitorModel := ⟨[("A", mA), ("B", mBprim)]⟩

/-- A registry whose only monitor is not flagged primary. -/
def mNoPrimary : MonitorModel := ⟨[("B", mB)]⟩

/-- The spec's ordering example: monitors at positions `(0, 0)`,
`(100, 0)` and `(0, 50)`. -/
def mP1 : Monitor := ⟨"P1", 0, 0, 0, 10, 10, false⟩

/-- The monitor at `(100, 0)`. -/
def mP2 : Monitor := ⟨"P2", 1, 100, 0, 10, 10, false⟩

/-- The monitor at `(0, 50)`. -/
def mP3 : Monitor := ⟨"P3", 2, 0, 50, 10, 10, false⟩

/-- A registry holding the three ordering-example monitors, inserted
as `(0, 0)`, `(100, 0)`, `(0, 50)`. -/
def mOrderModel : MonitorModel := ⟨[("P1", mP1), ("P2", mP2), ("P3", mP3)]⟩

/-! Helper lemmas about the dict primitives. -/

theorem contains_eq_true_iff (m : MonitorModel) (n : String) :
    m.contains n = true ↔ ∃ q ∈ m.monitors, q.1 = n := by
  simp [MonitorModel.contains, List.any_eq_true]

theorem contains_eq_false_iff (m : MonitorModel) (n : String) :
    m.contains n = false ↔ ∀ q ∈ m.monitors, q.1 ≠ n := by
  simp [MonitorModel.contains, List.any_eq_false]

theorem dictGet_eq_none (l : List (String × Monitor)) (n : String)
    (h : ∀ q ∈ l, q.1 ≠ n) : MonitorModel.dictGet l n = none := by
  induction l with
  | nil => rfl
  | cons q rest ih =>
    obtain ⟨k, v⟩ := q
    have hk : k ≠ n := h (k, v) (List.mem_cons_self _ _)
    simp only [MonitorModel.dictGet, if_neg hk]
    exact ih fun q hq => h q (List.mem_cons_of_mem _ hq)

theorem dictGet_first (pre post : List (String × Monitor)) (n : String)
    (v : Monitor) (h : ∀ q ∈ pre, q.1 ≠ n) :
    MonitorModel.dictGet (pre ++ (n, v) :: post) n = some v := by
  induction pre with
  | nil => simp [MonitorModel.dictGet]
  | cons q pre ih =>
    obtain ⟨k, w⟩ := q
    have hk : k ≠ n := h (k, w) (List.mem_cons_self _ _)
    simp only [List.cons_append, MonitorModel.dictGet, if_neg hk]
    exact ih fun q hq => h q (List.mem_cons_of_mem _ hq)

theorem dictPop_eq_none (l : List (String × Monitor)) (n : String)
    (h : ∀ q ∈ l, q.1 ≠ n) : MonitorModel.dictPop l n = none := by
  induction l with
  | nil => rfl
  | cons q rest ih =>
    obtain ⟨k, v⟩ := q
    have hk : k ≠ n := h (k, v) (List.mem_cons_self _ _)
    simp only [MonitorModel.dictPop, if_neg hk]
    rw [ih fun q hq => h q (List.mem_cons_of_mem _ hq)]

theorem dictPop_first (pre post : List (String × Monitor)) (n : String)
    (v : Monitor) (h : ∀ q ∈ pre, q.1 ≠ n) :
    MonitorModel.dictPop (pre ++ (n, v) :: post) n =
      some (v, pre ++ post) := by
  induction pre with
  | nil => simp [MonitorModel.dictPop]
  | cons q pre ih =>
    obtain ⟨k, w⟩ := q
    have hk : k ≠ n := h (k, w) (List.mem_cons_self _ _)
    simp only [List.cons_append, MonitorModel.dictPop, if_neg hk,
      List.append_eq]
    rw [ih fun q hq => h q (List.mem_cons_of_mem _ hq)]

theorem dictPop_sublist (l rest : List (String × Monitor)) (n : String)
    (v : Monitor) (h : MonitorModel.dictPop l n = some (v, rest)) :
    rest.Sublist l := by
  induction l generalizing rest with
  | nil => simp [MonitorModel.dictPop] at h
  | cons q tail ih =>
    obtain ⟨k, w⟩ := q
    by_cases hk : k = n
    · simp only [MonitorModel.dictPop, if_pos hk] at h
      cases h
      exact List.sublist_cons_self _ _
    · simp only [MonitorModel.dictPop, if_neg hk] at h
      cases htail : MonitorModel.dictPop tail n with
      | none => rw [htail] at h; cases h
      | some r =>
        obtain ⟨v2, rest2⟩ := r
        rw [htail] at h
        cases h
        exact List.Sublist.cons₂ _ (ih rest2 htail)

theorem exists_first_binding (l : List (String × Monitor)) (n : String)
    (h : ∃ q ∈ l, q.1 = n) :
    ∃ pre v post, l = pre ++ (n, v) :: post ∧ ∀ q ∈ pre, q.1 ≠ n := by
  induction l with
  | nil => simp at h
  | cons q rest ih =>
    obtain ⟨k, w⟩ := q
    by_cases hk : k = n
    · subst hk
      exact ⟨[], w, rest, rfl, by simp⟩
    · have hrest : ∃ q ∈ rest, q.1 = n := by
        rcases h with ⟨q, hq, hqn⟩
        rcases List.mem_cons.mp hq with rfl | hq
        · exact absurd hqn hk
        · exact ⟨q, hq, hqn⟩
      obtain ⟨pre, v, post, heq, hpre⟩ := ih hrest
      refine ⟨(k, w) :: pre, v, post, by simp [heq], ?_⟩
      intro q hq
      rcases List.mem_cons.mp hq with rfl | hq
      · exact hk
      · exact hpre q hq

/-! The claims. -/

/-- C1: for every registry state and descriptor `d`, if `d.device_name`
is already a key then `add(d)` fails with the duplicate-key
`ValueError`, the mapping is unchanged and no notification fires; if it
is absent, `add(d)` appends `d` under that key and emits exactly one
`ItemAdded(d.device_name, d)` notification. -/
theorem add_spec (m : MonitorModel) (d : Monitor) :
    (m.contains d.device_name = true →
      m.add d = .error (.valueError "Monitor is already in the model") ∧
      m.runAdd d = (m, [])) ∧
    (m.contains d.device_name = false →
      m.add d = .ok (⟨m.monitors ++ [(d.device_name, d)]⟩,
        [.itemAdded d.device_name d])) := by
  constructor
  · intro h
    constructor <;> simp [MonitorModel.add, MonitorModel.runAdd, h]
  · intro h
    simp [MonitorModel.add, h]

/-- C5: for every registry state and device name `n`, if `n` is absent
then `pop(n)` (and `remove` of any descriptor named `n`) fails with
`KeyError`, leaving the mapping unchanged with no notification; if `n`
is present, `pop(n)` removes exactly that entry (the others keep their
order), returns the removed descriptor and emits exactly one
`ItemRemoved(n, descriptor)` notification carrying it. -/
theorem pop_spec (m : MonitorModel) (n : String) :
    (m.contains n = false →
      m.pop n = .error (.keyError n) ∧ m.runPop n = (m, []) ∧
      ∀ d : Monitor, d.device_name = n →
        m.remove d = .error (.keyError n)) ∧
    (m.contains n = true →
      ∃ pre mon post, m.monitors = pre ++ (n, mon) :: post ∧
        (∀ q ∈ pre, q.1 ≠ n) ∧
        m.pop n = .ok (mon, ⟨pre ++ post⟩, [.itemRemoved n mon])) := by
  constructor
  · intro h
    have hnone : MonitorModel.dictPop m.monitors n = none :=
      dictPop_eq_none _ _ ((contains_eq_false_iff m n).mp h)
    refine ⟨?_, ?_, ?_⟩
    · simp [MonitorModel.pop, hnone]
    · simp [MonitorModel.runPop, MonitorModel.pop, hnone]
    · intro d hd
      simp [MonitorModel.remove, MonitorModel.pop, hd, hnone]
  · intro h
    obtain ⟨pre, mon, post, heq, hpre⟩ :=
      exists_first_binding m.monitors n ((contains_eq_true_iff m n).mp h)
    refine ⟨pre, mon, post, heq, hpre, ?_⟩
    simp [MonitorModel.pop, heq, dictPop_first pre post n mon hpre]

/-- C6: after `reset()` the registry is empty and exactly one
`ModelReset` notification has fired, whatever the prior entry count;
no `ItemRemoved` notification is emitted for any entry. -/
theorem reset_spec (m : MonitorModel) :
    (m.reset).1.size = 0 ∧ (m.reset).2 = [Event.modelReset] ∧
    ∀ n mon, Event.itemRemoved n mon ∉ (m.reset).2 := by
  refine ⟨rfl, rfl, ?_⟩
  intro n mon hmem
  simp [MonitorModel.reset] at hmem

/-- C7: round-trip — for a descriptor `d` whose name is not yet
present, `add(d)` succeeds, then `get(d.device_name)` returns `d`; a
subsequent `pop(d.device_name)` returns `d`, and after that pop,
`get(d.device_name, default)` returns the supplied default (`get` is a
total pure lookup that never raises). -/
theorem round_trip (m : MonitorModel) (d : Monitor)
    (default : Option Monitor) (h : m.contains d.device_name = false) :
    ∃ m2 evs, m.add d = .ok (m2, evs) ∧
      m2.get d.device_name none = some d ∧
      ∃ m3 evs2, m2.pop d.device_name = .ok (d, m3, evs2) ∧
        m3.get d.device_name default = default := by
  have habs : ∀ q ∈ m.monitors, q.1 ≠ d.device_name :=
    (contains_eq_false_iff m d.device_name).mp h
  refine ⟨⟨m.monitors ++ [(d.device_name, d)]⟩,
    [.itemAdded d.device_name d], ?_, ?_, ⟨m.monitors ++ []⟩,
    [.itemRemoved d.device_name d], ?_, ?_⟩
  · simp [MonitorModel.add, h]
  · simp [MonitorModel.get, dictGet_first m.monitors [] d.device_name d habs]
  · simp [MonitorModel.pop, dictPop_first m.monitors [] d.device_name d habs]
  · simp [MonitorModel.get, dictGet_eq_none _ _ habs]

/-- Witness for C7 at the empty registry with `d = mA` and default
`some mB`. -/
theorem round_trip_witness :
    emptyModel.contains mA.device_name = false ∧
    ∃ m2 evs, emptyModel.add mA = .ok (m2, evs) ∧
      m2.get mA.device_name none = some mA ∧
      ∃ m3 evs2, m2.pop mA.device_name = .ok (mA, m3, evs2) ∧
        m3.get mA.device_name (some mB) = some mB :=
  ⟨rfl, round_trip emptyModel mA (some mB) rfl⟩

/-- C2 counterexample: on the one-monitor registry `mJustA`,
`get_vscreen_size` does not return `(0, 0)`: the loop iterates over the
dict's keys, which are strings, and the first geometry attribute access
on the string key raises `AttributeError`. -/
theorem get_vscreen_size_counterexample :
    mJustA.get_vscreen_size ≠ .ok (0, 0) ∧
    mJustA.get_vscreen_size = .error (.attributeError
      "str object has no attribute position_x") := by
  refine ⟨?_, rfl⟩
  intro h
  exact Except.noConfusion h

/-- On any nonempty key list the first loop iteration of
`get_vscreen_size` raises `AttributeError`: the loop variable is a
`str` key and the first geometry attribute access fails. -/
theorem vscreenLoop_cons (k : String) (ks : List String)
    (min_x max_x min_y max_y : Int) :
    vscreenLoop (k :: ks) min_x max_x min_y max_y =
      .error (.attributeError "str object has no attribute position_x") :=
  rfl

/-- C2 (amended): `get_vscreen_size` never computes the monitors'
bounding box — because the loop iterates over the mapping's keys
(strings) and accesses the geometry attributes on them, it returns
`(0, 0)` on the empty registry and fails with `AttributeError` on every
nonempty registry. -/
theorem get_vscreen_size_spec (m : MonitorModel) :
    (m.monitors = [] → m.get_vscreen_size = .ok (0, 0)) ∧
    (m.monitors ≠ [] → m.get_vscreen_size = .error (.attributeError
      "str object has no attribute position_x")) := by
  constructor
  · intro h
    simp [MonitorModel.get_vscreen_size, MonitorModel.keys, h, vscreenLoop]
  · intro h
    obtain ⟨q, rest, heq⟩ := List.exists_cons_of_ne_nil h
    simp [MonitorModel.get_vscreen_size, MonitorModel.keys, heq,
      vscreenLoop_cons]

/-- Witness for the amended C2: the empty registry returns `(0, 0)`
and the nonempty registry `mJustA` fails with `AttributeError`. -/
theorem get_vscreen_size_spec_witness :
    (emptyModel.monitors = [] ∧ emptyModel.get_vscreen_size = .ok (0, 0)) ∧
    (mJustA.monitors ≠ [] ∧ mJustA.get_vscreen_size = .error (.attributeError
      "str object has no attribute position_x")) :=
  ⟨⟨rfl, (get_vscreen_size_spec emptyModel).1 rfl⟩,
   ⟨by decide, (get_vscreen_size_spec mJustA).2 (by decide)⟩⟩

/-- C8: `get_primary_monitor()` yields exactly the same sequence as
`filter` with the predicate `monitor.primary`; it never fails and
yields exactly the set of descriptors with `primary = true` — zero,
one, or more than one — enforcing no uniqueness of the flag. -/
theorem get_primary_monitor_spec (m : MonitorModel) :
    m.get_primary_monitor = m.filter (fun monitor => monitor.primary) ∧
    (∀ mon, mon ∈ m.get_primary_monitor ↔
      mon ∈ m.values ∧ mon.primary = true) ∧
    mTwoPrimary.get_primary_monitor = [mA, mBprim] ∧
    mNoPrimary.get_primary_monitor = [] := by
  refine ⟨rfl, ?_, rfl, rfl⟩
  intro mon
  simp [MonitorModel.get_primary_monitor, MonitorModel.filter,
    List.mem_filter]

/-- C9: every registry state reachable through the mutators satisfies
the invariant that each key maps to a descriptor whose `device_name`
field equals that key. -/
theorem reachable_keysMatch (m : MonitorModel) (h : Reachable m) :
    KeysMatch m := by
  induction h with
  | init =>
    intro q hq
    cases hq
  | addOk hr hadd ih =>
    rename_i m m2 d evs
    by_cases hc : m.contains d.device_name
    · simp [MonitorModel.add, hc] at hadd
    · simp only [MonitorModel.add, hc, if_neg, Bool.false_eq_true,
        ite_false, Except.ok.injEq, Prod.mk.injEq] at hadd
      obtain ⟨hm2, -⟩ := hadd
      intro q hq
      rw [← hm2] at hq
      rcases List.mem_append.mp hq with hq | hq
      · exact ih q hq
      · rcases List.mem_singleton.mp hq with rfl
        rfl
  | popOk hr hpop ih =>
    rename_i m m2 n mon evs
    cases hd : MonitorModel.dictPop m.monitors n with
    | none => simp [MonitorModel.pop, hd] at hpop
    | some r =>
      obtain ⟨v, rest⟩ := r
      simp only [MonitorModel.pop, hd, Except.ok.injEq, Prod.mk.injEq]
        at hpop
      obtain ⟨-, hm2, -⟩ := hpop
      intro q hq
      rw [← hm2] at hq
      exact ih q ((dictPop_sublist m.monitors rest n v hd).mem hq)
  | resetStep hr ih =>
    intro q hq
    cases hq

/-- Witness for C9: the state reached by adding `mA` to the empty
registry satisfies the invariant. -/
theorem reachable_keysMatch_witness : KeysMatch mJustA :=
  reachable_keysMatch mJustA
    (Reachable.addOk (d := mA) Reachable.init rfl)

/-- C10: `remove(d)` keys only on `d.device_name` — whenever that name
is a stored key, `remove(d)` succeeds, removes the descriptor currently
stored under the name (which need not be `d` itself), the emitted
`ItemRemoved` notification carries the stored descriptor, and the other
fields of the argument `d` have no effect on the outcome. -/
theorem remove_spec (m : MonitorModel) (d : Monitor)
    (h : m.contains d.device_name = true) :
    ∃ stored m2, m.get d.device_name none = some stored ∧
      m.remove d = .ok (m2, [.itemRemoved d.device_name stored]) ∧
      ∀ d' : Monitor, d'.device_name = d.device_name →
        m.remove d' = m.remove d := by
  obtain ⟨pre, mon, post, heq, hpre⟩ :=
    exists_first_binding m.monitors d.device_name
      ((contains_eq_true_iff _ _).mp h)
  refine ⟨mon, ⟨pre ++ post⟩, ?_, ?_, ?_⟩
  · simp [MonitorModel.get, heq, dictGet_first pre post _ mon hpre]
  · simp [MonitorModel.remove, MonitorModel.pop, heq,
      dictPop_first pre post _ mon hpre]
  · intro d' hd'
    simp [MonitorModel.remove, MonitorModel.pop, hd']

/-- Witness for C10: removing `mA2` (same `device_name` as the stored
`mA`, every other field different) from the registry holding `mA`
succeeds and the notification carries the stored `mA`, not the
argument `mA2`. -/
theorem remove_spec_witness :
    mJustA.contains mA2.device_name = true ∧ mA2 ≠ mA ∧
    ∃ stored m2, mJustA.get mA2.device_name none = some stored ∧
      mJustA.remove mA2 = .ok (m2, [.itemRemoved mA2.device_name stored]) ∧
      ∀ d' : Monitor, d'.device_name = mA2.device_name →
        mJustA.remove d' = mJustA.remove mA2 :=
  ⟨by decide, by decide, remove_spec mJustA mA2 (by decide)⟩

/-! The traversal of `get_from_position` returns the first hit, in
list order, and raises exactly when there is no hit. -/

theorem findFromPosition_ok_iff (x y : Int) (l : List Monitor)
    (mon : Monitor) :
    findFromPosition x y l = .ok mon ↔
      ∃ pre post, l = pre ++ mon :: post ∧ InRect x y mon ∧
        ∀ q ∈ pre, ¬ InRect x y q := by
  induction l with
  | nil =>
    simp [findFromPosition]
  | cons b rest ih =>
    by_cases hb : InRect x y b
    · simp only [findFromPosition, if_pos hb]
      constructor
      · intro h
        rw [Except.ok.injEq] at h
        subst h
        exact ⟨[], rest, rfl, hb, by simp⟩
      · rintro ⟨pre, post, heq, hmon, hpre⟩
        cases pre with
        | nil =>
          simp only [List.nil_append, List.cons.injEq] at heq
          rw [heq.1]
        | cons c pre =>
          simp only [List.cons_append, List.cons.injEq] at heq
          exact absurd (heq.1 ▸ hb) (hpre c (List.mem_cons_self _ _))
    · simp only [findFromPosition, if_neg hb]
      rw [ih]
      constructor
      · rintro ⟨pre, post, heq, hmon, hpre⟩
        refine ⟨b :: pre, post, by rw [heq, List.cons_append], hmon, ?_⟩
        intro q hq
        rcases List.mem_cons.mp hq with rfl | hq
        · exact hb
        · exact hpre q hq
      · rintro ⟨pre, post, heq, hmon, hpre⟩
        cases pre with
        | nil =>
          simp only [List.nil_append, List.cons.injEq] at heq
          exact absurd (heq.1.symm ▸ hmon) hb
        | cons c pre =>
          simp only [List.cons_append, List.cons.injEq] at heq
          exact ⟨pre, post, heq.2, hmon,
            fun q hq => hpre q (List.mem_cons_of_mem _ hq)⟩

theorem findFromPosition_error_iff (x y : Int) (l : List Monitor) :
    findFromPosition x y l = .error (.lookupError
      "Requested position is outside of visible virtual screen area") ↔
      ∀ mon ∈ l, ¬ InRect x y mon := by
  induction l with
  | nil => simp [findFromPosition]
  | cons b rest ih =>
    by_cases hb : InRect x y b
    · simp only [findFromPosition, if_pos hb]
      constructor
      · intro h
        exact Except.noConfusion h
      · intro h
        exact ((h b (List.mem_cons_self _ _)) hb).elim
    · simp only [findFromPosition, if_neg hb]
      rw [ih]
      constructor
      · intro h mon hmon
        rcases List.mem_cons.mp hmon with rfl | hmon
        · exact hb
        · exact h mon hmon
      · intro h mon hmon
        exact h mon (List.mem_cons_of_mem _ hmon)

/-- C3: `get_from_position(x, y)` returns the first descriptor, in the
registry's insertion order, whose closed rectangle contains `(x, y)`
(inclusive on all four edges), and fails with the out-of-bounds
`LookupError` iff no descriptor's rectangle contains the point; on the
spec's example `A = [0,0,100,100]`, `B = [100,0,100,100]`, the point
`(50, 50)` yields `A`, `(150, 50)` yields `B` and `(250, 50)` raises. -/
theorem get_from_position_spec (m : MonitorModel) (x y : Int) :
    (∀ mon, m.get_from_position x y = .ok mon ↔
      ∃ pre post, m.values = pre ++ mon :: post ∧ InRect x y mon ∧
        ∀ q ∈ pre, ¬ InRect x y q) ∧
    (m.get_from_position x y = .error (.lookupError
      "Requested position is outside of visible virtual screen area") ↔
      ∀ mon ∈ m.values, ¬ InRect x y mon) ∧
    mAB.get_from_position 50 50 = .ok mA ∧
    mAB.get_from_position 150 50 = .ok mB ∧
    mAB.get_from_position 250 50 = .error (.lookupError
      "Requested position is outside of visible virtual screen area") :=
  ⟨fun mon => findFromPosition_ok_iff x y m.values mon,
   findFromPosition_error_iff x y m.values, rfl, rfl, rfl⟩

/-! The stable sort underlying `get_monitor_order`. -/

theorem insertSorted_perm (le : Monitor → Monitor → Bool) (a : Monitor)
    (l : List Monitor) : (insertSorted le a l).Perm (a :: l) := by
  induction l with
  | nil => exact List.Perm.refl _
  | cons b l ih =>
    by_cases h : le a b = true
    · simp [insertSorted, h]
    · simp only [insertSorted, if_neg h]
      exact (List.Perm.cons b ih).trans (List.Perm.swap a b l)

theorem stableSorted_perm (le : Monitor → Monitor → Bool)
    (l : List Monitor) : (stableSorted le l).Perm l := by
  induction l with
  | nil => exact List.Perm.refl _
  | cons a l ih =>
    exact (insertSorted_perm le a _).trans (List.Perm.cons a ih)

theorem mem_insertSorted (le : Monitor → Monitor → Bool) (a x : Monitor)
    (l : List Monitor) : x ∈ insertSorted le a l ↔ x = a ∨ x ∈ l := by
  rw [(insertSorted_perm le a l).mem_iff]
  simp

theorem insertSorted_pairwise (le : Monitor → Monitor → Bool)
    (htrans : ∀ u v w, le u v = true → le v w = true → le u w = true)
    (htot : ∀ u v, le u v = true ∨ le v u = true)
    (a : Monitor) (l : List Monitor)
    (hl : l.Pairwise fun u v => le u v = true) :
    (insertSorted le a l).Pairwise fun u v => le u v = true := by
  induction l with
  | nil => simp [insertSorted]
  | cons b l ih =>
    rcases List.pairwise_cons.mp hl with ⟨hb, hl'⟩
    by_cases h : le a b = true
    · simp only [insertSorted, if_pos h]
      refine List.pairwise_cons.mpr ⟨?_, hl⟩
      intro x hx
      rcases List.mem_cons.mp hx with rfl | hx
      · exact h
      · exact htrans a b x h (hb x hx)
    · simp only [insertSorted, if_neg h]
      refine List.pairwise_cons.mpr ⟨?_, ih hl'⟩
      intro x hx
      rcases (mem_insertSorted le a x l).mp hx with rfl | hx
      · rcases htot x b with hab | hba
        · exact absurd hab h
        · exact hba
      · exact hb x hx

theorem stableSorted_pairwise (le : Monitor → Monitor → Bool)
    (htrans : ∀ u v w, le u v = true → le v w = true → le u w = true)
    (htot : ∀ u v, le u v = true ∨ le v u = true)
    (l : List Monitor) :
    (stableSorted le l).Pairwise fun u v => le u v = true := by
  induction l with
  | nil => exact List.Pairwise.nil
  | cons a l ih => exact insertSorted_pairwise le htrans htot a _ ih

theorem insertSorted_filter (le : Monitor → Monitor → Bool)
    (p : Monitor → Bool)
    (hp : ∀ u v, p u = true → p v = true → le u v = true)
    (a : Monitor) (l : List Monitor) :
    (insertSorted le a l).filter p =
      if p a then a :: l.filter p else l.filter p := by
  induction l with
  | nil => simp [insertSorted, List.filter_cons]
  | cons b l ih =>
    by_cases h : le a b = true
    · simp [insertSorted, h, List.filter_cons]
    · simp only [insertSorted, if_neg h]
      by_cases hpb : p b = true
      · by_cases hpa : p a = true
        · exact absurd (hp a b hpa hpb) h
        · simp [List.filter_cons, hpb, hpa, ih]
      · by_cases hpa : p a = true <;>
          simp [List.filter_cons, hpb, hpa, ih]

theorem stableSorted_filter (le : Monitor → Monitor → Bool)
    (p : Monitor → Bool)
    (hp : ∀ u v, p u = true → p v = true → le u v = true)
    (l : List Monitor) :
    (stableSorted le l).filter p = l.filter p := by
  induction l with
  | nil => rfl
  | cons a l ih =>
    rw [stableSorted, insertSorted_filter le p hp a _, ih]
    by_cases hpa : p a = true <;> simp [List.filter_cons, hpa]

theorem monitorLE_trans (a b c : Monitor) (h1 : monitorLE a b = true)
    (h2 : monitorLE b c = true) : monitorLE a c = true := by
  simp only [monitorLE, decide_eq_true_eq] at h1 h2 ⊢
  omega

theorem monitorLE_total (a b : Monitor) :
    monitorLE a b = true ∨ monitorLE b a = true := by
  simp only [monitorLE, decide_eq_true_eq]
  omega

/-- C4: `get_monitor_order()` returns a permutation of all stored
descriptors, sorted ascending by the pair
`(position_x, position_y)`, and the sort is stable: for every
position, the descriptors at that position appear in the output in
their original insertion order; on monitors inserted at positions
`(0, 0)`, `(100, 0)`, `(0, 50)` the result is ordered
`(0, 0), (0, 50), (100, 0)`. -/
theorem get_monitor_order_spec (m : MonitorModel) :
    m.get_monitor_order.Perm m.values ∧
    m.get_monitor_order.Pairwise (fun a b => monitorLE a b = true) ∧
    (∀ px py : Int,
      m.get_monitor_order.filter
          (fun mon => decide (mon.position_x = px ∧ mon.position_y = py)) =
        m.values.filter
          (fun mon => decide (mon.position_x = px ∧ mon.position_y = py))) ∧
    mOrderModel.get_monitor_order = [mP1, mP3, mP2] := by
  refine ⟨stableSorted_perm _ _,
    stableSorted_pairwise _ monitorLE_trans monitorLE_total _, ?_, rfl⟩
  intro px py
  refine stableSorted_filter _ _ ?_ _
  intro u v hu hv
  simp only [decide_eq_true_eq] at hu hv
  simp only [monitorLE, decide_eq_true_eq]
  omega

end HwMonitor
